import Mathlib

/-!
# Verification of the langflow human/AI hand-off components

Shallow embedding of the conversation-ownership protocol implemented in
`src/backend/base/langflow/components/custom/`:

* `google_chat_human_takeover.py` (`GoogleChatHumanTakeover`)
* `thread_key_generator.py` (`ThreadKeyGenerator`)
* `google_chat_sender.py` (`GoogleChatSender`)
* `google_pubsub_trigger.py` (`GooglePubSubTrigger`)

Python strings that undergo character-level operations (`lower`, `strip`,
substring membership `in`, `split(",")`) are modelled as lists of Unicode
code points (`List Nat`); `strCodes` converts a Lean string literal into
this representation.  Strings that are only compared for equality
(controller tags, session ids, thread keys) stay as `String`.

External effects are made explicit: the Firestore document store is an
association list (first binding wins, as `doc_ref.set` followed by `get`
returns the newest write), timestamps are integers (seconds), and the
result of parsing an ISO timestamp string is abstracted by `IsoTime`
(`valid t` for a parseable timestamp denoting time `t`, `malformed` for a
string that `datetime.fromisoformat` rejects).
-/

namespace Langflow

/-! ## Python string primitives -/

/-- Unicode code points of a string, the model of a Python `str`. -/
def strCodes (s : String) : List Nat :=
  s.data.map Char.toNat

/-- Python `str.strip` whitespace class (` \t\n\r\x0b\x0c`), by code point. -/
def pySpace (c : Nat) : Bool :=
  c == 9 || c == 10 || c == 11 || c == 12 || c == 13 || c == 32

/-- ASCII lowering of one code point, the model of Python `str.lower`
on the ASCII range used by the components. -/
def pyLowerChar (c : Nat) : Nat :=
  if 65 ≤ c ∧ c ≤ 90 then c + 32 else c

/-- Python `str.lower`. -/
def pyLower (s : List Nat) : List Nat :=
  s.map pyLowerChar

/-- Python `str.strip()`: drop whitespace from both ends. -/
def pyStrip (s : List Nat) : List Nat :=
  (((s.dropWhile pySpace).reverse.dropWhile pySpace).reverse)

/-- Python substring membership `needle in hay`. -/
def pyIn (needle hay : List Nat) : Bool :=
  decide (needle <:+: hay)

/-- Helper for `splitComma`: accumulates the current (reversed) chunk. -/
def splitCommaAux : List Nat → List Nat → List (List Nat)
  | acc, [] => [acc.reverse]
  | acc, c :: rest =>
    if c == 44 then acc.reverse :: splitCommaAux [] rest
    else splitCommaAux (c :: acc) rest

/-- Python `str.split(",")`. -/
def splitComma (s : List Nat) : List (List Nat) :=
  splitCommaAux [] s

/-! ## Handoff detection (`GoogleChatHumanTakeover._is_handoff_message`) -/

/-- `GoogleChatHumanTakeover._is_handoff_message`
(google_chat_human_takeover.py lines 280-290): split the configured
keyword string on commas, strip and lower each keyword, lower and strip
the message text, and report whether some non-empty keyword occurs as a
substring of the processed text. -/
def isHandoffMessage (handoff_keywords : String) (text : List Nat) : Bool :=
  let keywords := (splitComma (strCodes handoff_keywords)).map (fun k => pyLower (pyStrip k))
  let text_lower := pyStrip (pyLower text)
  keywords.any (fun k => !k.isEmpty && pyIn k text_lower)

/-- Spec reading of `is_handoff` (spec §4.4): some keyword that is
non-empty after trimming occurs, case-insensitively, as a substring of
the text itself (not of the stripped text). -/
def isHandoffSpec (handoff_keywords : String) (text : List Nat) : Bool :=
  (splitComma (strCodes handoff_keywords)).any
    (fun k => !(pyStrip k).isEmpty && pyIn (pyLower (pyStrip k)) (pyLower text))

/-! ## Timestamps and the Firestore document model -/

/-- The result of parsing a stored timestamp string with
`datetime.fromisoformat` (after the `"Z" → "+00:00"` replacement):
`valid t` for a string denoting the instant `t` (seconds), `malformed`
for a string the parser rejects. -/
inductive IsoTime where
  | valid (t : Int)
  | malformed
deriving DecidableEq

/-- One document of the `conversation_control` collection, as written by
`GoogleChatHumanTakeover._set_control_state` or defaulted by
`_get_control_state`.  Every code path reads `controller` through
`state.get("controller", "AI")`, so the field is total here. -/
structure ControlDoc where
  controller : String
  last_human_activity : Option IsoTime
  thread_key : String
  updated_at : Option IsoTime
deriving DecidableEq

/-- The `conversation_control` collection: newest write first, looked up
with `List.lookup` (first binding wins). -/
abbrev ControlStore := List (String × ControlDoc)

/-- `GoogleChatHumanTakeover._get_control_state`
(google_chat_human_takeover.py lines 229-243): return the stored document,
or the default `{controller: "AI", last_human_activity: None, thread_key}`
when no record exists. -/
def getControlState (store : ControlStore) (tk : String) : ControlDoc :=
  match store.lookup tk with
  | some d => d
  | none => ⟨"AI", none, tk, none⟩

/-- `GoogleChatHumanTakeover._set_control_state`
(google_chat_human_takeover.py lines 245-260): write controller,
thread_key and updated_at; set `last_human_activity` to the current time
only when the controller written is `"HUMAN"`.  `doc_ref.set(data,
merge=True)` leaves fields absent from `data` untouched, so a write of
`"AI"` keeps the previously stored `last_human_activity` (or leaves it
absent if there was no record). -/
def setControlState (store : ControlStore) (tk controller : String) (now : Int) :
    ControlStore :=
  let old : Option IsoTime :=
    match store.lookup tk with
    | some d => d.last_human_activity
    | none => none
  let lha := if controller = "HUMAN" then some (IsoTime.valid now) else old
  (tk, ⟨controller, lha, tk, some (IsoTime.valid now)⟩) :: store

/-- `GoogleChatHumanTakeover._check_human_timeout`
(google_chat_human_takeover.py lines 262-278): false when
`last_human_activity` is missing; false when parsing it fails
(`ValueError`/`TypeError` caught); otherwise true iff the elapsed time
exceeds the timeout.  The source compares
`(now - last).total_seconds() / 60 > human_timeout_minutes`, which for
integer seconds is `now - t > 60 * human_timeout_minutes`. -/
def checkHumanTimeout (now human_timeout_minutes : Int) (state : ControlDoc) : Bool :=
  match state.last_human_activity with
  | none => false
  | some IsoTime.malformed => false
  | some (IsoTime.valid t) => decide (now - t > 60 * human_timeout_minutes)

/-- The timeout test as the router evaluates it
(google_chat_human_takeover.py line 399:
`if current_controller == "HUMAN" and self._check_human_timeout(state)`),
i.e. the spec's `check_timeout(state, timeout_minutes)`. -/
def checkTimeout (now human_timeout_minutes : Int) (state : ControlDoc) : Bool :=
  state.controller == "HUMAN" && checkHumanTimeout now human_timeout_minutes state

/-! ## Thread keys (`ThreadKeyGenerator`) and credential parsing -/

/-- One document of the `thread_keys` collection, as written by
`ThreadKeyGenerator._get_or_create_key`.  The reader uses
`doc.to_dict().get("thread_key", "")`, so an absent field and the empty
string coincide; the field is therefore a plain `String` here. -/
structure ThreadKeyDoc where
  thread_key : String
  session_id : String
  created_at : IsoTime
deriving DecidableEq

/-- The `thread_keys` collection, keyed by session id, newest write first. -/
abbrev ThreadKeyStore := List (String × ThreadKeyDoc)

/-- The outcome of `json.loads(self.service_account_json, strict=False)`,
abstracted to whether the blob is valid JSON. -/
inductive SAJson where
  | valid
  | invalid
deriving DecidableEq

/-- `ThreadKeyGenerator._get_or_create_key`
(thread_key_generator.py lines 196-251), with the store explicit and the
random generation result passed in as `freshKey` (the value
`_generate_key` would produce).  Empty session id: generate without
persisting.  Invalid credential JSON: the `json.JSONDecodeError` is
caught and the function degrades to a generated, non-persisted key.
Otherwise: return an existing non-empty `thread_key` unchanged, else
persist and return `freshKey`.  Store reads and writes are modelled as
succeeding. -/
def tkgGetOrCreateKey (session_id : String) (sa : SAJson) (store : ThreadKeyStore)
    (freshKey : String) (now : Int) : String × ThreadKeyStore :=
  if session_id = "" then (freshKey, store)
  else
    match sa with
    | SAJson.invalid => (freshKey, store)
    | SAJson.valid =>
      match store.lookup session_id with
      | some d =>
        if d.thread_key ≠ "" then (d.thread_key, store)
        else (freshKey, (session_id, ⟨freshKey, session_id, IsoTime.valid now⟩) :: store)
      | none =>
        (freshKey, (session_id, ⟨freshKey, session_id, IsoTime.valid now⟩) :: store)

/-! ## Credential-parsing error policy (C9) -/

/-- The credential-parsing prelude of `GoogleChatHumanTakeover._route`
(google_chat_human_takeover.py lines 372-378): invalid JSON raises
`ValueError("Invalid Service Account JSON: ...")` to the caller. -/
def routeParseServiceAccount : SAJson → Except String Unit
  | SAJson.valid => Except.ok ()
  | SAJson.invalid => Except.error "Invalid Service Account JSON"

/-- The credential-parsing prelude of `GoogleChatSender.send_message`
(google_chat_sender.py lines 192-201): an empty blob (`none` here) raises
`ValueError("Service Account JSON is required")`; invalid JSON raises
`ValueError("Invalid Service Account JSON: ...")`. -/
def senderParseServiceAccount : Option SAJson → Except String Unit
  | none => Except.error "Service Account JSON is required"
  | some SAJson.invalid => Except.error "Invalid Service Account JSON"
  | some SAJson.valid => Except.ok ()

/-! ## The conversation router (`GoogleChatHumanTakeover._route`) -/

/-- The record `_check_for_human_message` returns for a qualifying human
message: `{"text": ..., "sender_name": ..., "sender_email": ...}`. -/
structure PolledMsg where
  text : List Nat
  sender_name : String
  sender_email : List Nat
deriving DecidableEq

/-- The value `_route` returns, together with the resulting control store
and the sequence of controller values written to it (so that "a store
write occurs" is observable). `forwarded` carries the `(text, sender)` of
the `Message` handed to the customer-facing output, `none` when the
router emits nothing. -/
structure RouteResult where
  route : String
  forwarded : Option (List Nat × String)
  control : ControlStore
  writes : List String
deriving DecidableEq

/-- `GoogleChatHumanTakeover._get_thread_key`
(google_chat_human_takeover.py lines 204-227): empty session id, or no
stored document, or a document without a non-empty `thread_key`, all
yield `""`. -/
def getThreadKey (threadKeys : ThreadKeyStore) (session_id : String) : String :=
  if session_id = "" then ""
  else
    match threadKeys.lookup session_id with
    | some d => d.thread_key
    | none => ""

/-- `GoogleChatHumanTakeover._route`
(google_chat_human_takeover.py lines 365-447), after credential parsing
succeeded.  `humanMsg` is the result of `_check_for_human_message`
(modelled separately as `checkHumanMessageBatch`).  Steps: resolve the
thread key (failure short-circuits to the AI route with no write); read
the control state; apply the HUMAN-timeout reversion; then dispatch on
the polled message: a handoff message writes `"AI"` and is not forwarded,
any other human message writes `"HUMAN"` and is forwarded, and with no
message the route follows the (possibly timeout-reverted) controller. -/
def route (handoff_keywords : String) (human_timeout_minutes : Int)
    (threadKeys : ThreadKeyStore) (control : ControlStore)
    (session_id : String) (humanMsg : Option PolledMsg) (now : Int) : RouteResult :=
  let tk := getThreadKey threadKeys session_id
  if tk = "" then ⟨"AI", none, control, []⟩
  else
    let state := getControlState control tk
    let timedOut := checkTimeout now human_timeout_minutes state
    let control1 := if timedOut then setControlState control tk "AI" now else control
    let writes1 : List String := if timedOut then ["AI"] else []
    let controller1 := if timedOut then "AI" else state.controller
    match humanMsg with
    | some m =>
      if isHandoffMessage handoff_keywords m.text then
        ⟨"AI", none, setControlState control1 tk "AI" now, writes1 ++ ["AI"]⟩
      else
        ⟨"HUMAN", some (m.text, m.sender_name), setControlState control1 tk "HUMAN" now,
          writes1 ++ ["HUMAN"]⟩
    | none =>
      if controller1 == "HUMAN" then ⟨"HUMAN", none, control1, writes1⟩
      else ⟨"AI", none, control1, writes1⟩

/-! ## Queue polling and acknowledgment (C4) -/

/-- The fields the components extract (via `.get` with defaults) from one
successfully decoded queue payload. -/
structure QmsgEvent where
  type : String
  sender_email : List Nat
  sender_name : String
  text : List Nat
  thread_name : String
deriving DecidableEq

/-- One queue message's payload: either `json.loads` fails (`malformed`)
or it decodes to an event record. -/
inductive QMsg where
  | malformed
  | event (e : QmsgEvent)
deriving DecidableEq

/-- Result of processing one pulled batch: the value returned (if any),
the ack ids acknowledged, and the entries that were examined before the
loop returned or the batch was exhausted. -/
structure BatchOut where
  found : Option PolledMsg
  acked : List Nat
  examined : List (Nat × QMsg)
deriving DecidableEq

/-- The per-batch loop of `GoogleChatHumanTakeover._check_for_human_message`
(google_chat_human_takeover.py lines 308-355), over one pull's received
messages tagged with their ack ids.  A payload that fails to decode is
logged and skipped WITHOUT acknowledgment (the `except` branch only
`continue`s); a decoded non-`MESSAGE` event is acknowledged and skipped; a
decoded message from the bot (configured bot email a substring of the
sender email) is acknowledged and skipped; the first remaining message is
acknowledged and returned, leaving the rest of the batch unexamined. -/
def checkHumanMessageBatch (bot_email : List Nat) : List (Nat × QMsg) → BatchOut
  | [] => ⟨none, [], []⟩
  | (id, m) :: rest =>
    match m with
    | QMsg.malformed =>
      let r := checkHumanMessageBatch bot_email rest
      ⟨r.found, r.acked, (id, m) :: r.examined⟩
    | QMsg.event e =>
      if e.type ≠ "MESSAGE" then
        let r := checkHumanMessageBatch bot_email rest
        ⟨r.found, id :: r.acked, (id, m) :: r.examined⟩
      else if !bot_email.isEmpty && pyIn bot_email e.sender_email then
        let r := checkHumanMessageBatch bot_email rest
        ⟨r.found, id :: r.acked, (id, m) :: r.examined⟩
      else
        ⟨some ⟨e.text, e.sender_name, e.sender_email⟩, [id], [(id, m)]⟩

/-- What `GooglePubSubTrigger._wait_for_message_sync` returns for a batch:
a parsed Google Chat event, or the raw decoded payload when
`parse_google_chat` is off. -/
inductive TriggerFound where
  | parsed (e : QmsgEvent)
  | raw (e : QmsgEvent)
deriving DecidableEq

/-- Result of one batch iteration of the trigger's poll loop. -/
structure TriggerBatchOut where
  found : Option TriggerFound
  acked : List Nat
  examined : List (Nat × QMsg)
deriving DecidableEq

/-- `GooglePubSubTrigger._should_accept_message`
(google_pubsub_trigger.py lines 171-189): reject events whose sender
email contains the (stripped, non-empty) bot email, and events whose
thread name differs from a non-empty thread filter. -/
def shouldAcceptMessage (bot_email : List Nat) (thread_filter : String)
    (e : QmsgEvent) : Bool :=
  let b := pyStrip bot_email
  if !b.isEmpty && pyIn b e.sender_email then false
  else if thread_filter ≠ "" && e.thread_name ≠ thread_filter then false
  else true

/-- The per-batch loop of `GooglePubSubTrigger._wait_for_message_sync`
(google_pubsub_trigger.py lines 268-357).  Here (unlike the takeover's
quick check) a payload that fails to decode IS acknowledged — when the
`acknowledge_message` flag `ack` is set — before being skipped; decoded
events are acknowledged whether or not they pass the event-type and
filter checks; the first accepted message is acknowledged and returned.
`ackIf` models the `if self.acknowledge_message: subscriber.acknowledge(...)`
guard around each acknowledgment. -/
def ackIf (ack : Bool) (id : Nat) (acks : List Nat) : List Nat :=
  if ack then id :: acks else acks

def triggerBatch (ack parse_google_chat : Bool) (bot_email : List Nat)
    (thread_filter : String) : List (Nat × QMsg) → TriggerBatchOut
  | [] => ⟨none, [], []⟩
  | (id, m) :: rest =>
    match m with
    | QMsg.malformed =>
      let r := triggerBatch ack parse_google_chat bot_email thread_filter rest
      ⟨r.found, ackIf ack id r.acked, (id, m) :: r.examined⟩
    | QMsg.event e =>
      if parse_google_chat then
        if e.type ≠ "MESSAGE" then
          let r := triggerBatch ack parse_google_chat bot_email thread_filter rest
          ⟨r.found, ackIf ack id r.acked, (id, m) :: r.examined⟩
        else if !shouldAcceptMessage bot_email thread_filter e then
          let r := triggerBatch ack parse_google_chat bot_email thread_filter rest
          ⟨r.found, ackIf ack id r.acked, (id, m) :: r.examined⟩
        else
          ⟨some (TriggerFound.parsed e), ackIf ack id [], [(id, m)]⟩
      else
        ⟨some (TriggerFound.raw e), ackIf ack id [], [(id, m)]⟩

/-! ## Outbound sends (`GoogleChatSender.send_message`, C8) -/

/-- The `"thread"` member of the outbound JSON payload:
`{"name": ...}` or `{"threadKey": ...}`. -/
inductive ThreadRef where
  | name (n : String)
  | threadKey (k : String)
deriving DecidableEq

/-- Python `str.strip()` on a `String`, via the code-point model. -/
def pyStripStr (s : String) : String :=
  ⟨(pyStrip (strCodes s)).map Char.ofNat⟩

/-- The thread-reference selection of `GoogleChatSender.send_message`
(google_chat_sender.py lines 230-257): explicit thread name (stripped)
first; else the cached resolved thread name under `"{space_id}:{thread_key}"`
(the cache is consulted only when the thread key is non-empty, since
`cache_key` is `""` otherwise); else the bare thread key; else nothing.
The boolean records whether
`?messageReplyOption=REPLY_MESSAGE_FALLBACK_TO_NEW_THREAD` was appended
to the request URL, which the source does in each of the three branches
that set a thread reference and nowhere else. -/
def sendThreadChoice (thread_name_input thread_key space_id : String)
    (cache : List (String × String)) : Option ThreadRef × Bool :=
  let tni := pyStripStr thread_name_input
  let cache_key := if thread_key ≠ "" then space_id ++ ":" ++ thread_key else ""
  if tni ≠ "" then (some (ThreadRef.name tni), true)
  else
    match (if cache_key ≠ "" then cache.lookup cache_key else none) with
    | some cached => (some (ThreadRef.name cached), true)
    | none =>
      if thread_key ≠ "" then (some (ThreadRef.threadKey thread_key), true)
      else (none, false)

/-- The resolution priority as the spec words it (§4.6): (1) explicit full
thread name if provided, (2) cached resolved thread name for
`(space_id, thread_key)`, (3) bare `thread_key` if non-empty, (4) no
thread. -/
def specThreadChoice (thread_name_input thread_key space_id : String)
    (cache : List (String × String)) : Option ThreadRef :=
  let tni := pyStripStr thread_name_input
  if tni ≠ "" then some (ThreadRef.name tni)
  else
    match cache.lookup (space_id ++ ":" ++ thread_key) with
    | some cached => some (ThreadRef.name cached)
    | none =>
      if thread_key ≠ "" then some (ThreadRef.threadKey thread_key)
      else none

/-! ## Theorems -/

/-! ### Facts about the string primitives -/

theorem pySpace_false_of_ge (c : Nat) (h : 33 ≤ c) : pySpace c = false := by
  unfold pySpace
  simp only [Bool.or_eq_false_iff, beq_eq_false_iff_ne, ne_eq]
  omega

theorem pySpace_pyLowerChar (c : Nat) : pySpace (pyLowerChar c) = pySpace c := by
  unfold pyLowerChar
  split
  · next h =>
    rw [pySpace_false_of_ge (c + 32) (by omega), pySpace_false_of_ge c (by omega)]
  · rfl

theorem isEmpty_map (f : Nat → Nat) (l : List Nat) :
    (l.map f).isEmpty = l.isEmpty := by
  cases l <;> rfl

theorem head?_dropWhile (p : Nat → Bool) (l : List Nat) (a : Nat)
    (h : (l.dropWhile p).head? = some a) : p a = false := by
  induction l with
  | nil => simp at h
  | cons c t ih =>
    rw [List.dropWhile_cons] at h
    split at h
    · exact ih h
    · next hc =>
      simp only [List.head?_cons, Option.some.injEq] at h
      subst h
      exact Bool.eq_false_iff.mpr hc

theorem getLast?_of_suffix (l₁ l₂ : List Nat) (hs : l₁ <:+ l₂) (hne : l₁ ≠ []) :
    l₂.getLast? = l₁.getLast? := by
  obtain ⟨w, rfl⟩ := hs
  rw [List.getLast?_append_of_ne_nil w hne]

theorem getLast?_pyStrip (s : List Nat) (a : Nat)
    (h : (pyStrip s).getLast? = some a) : pySpace a = false := by
  unfold pyStrip at h
  rw [List.getLast?_reverse] at h
  exact head?_dropWhile _ _ _ h

theorem head?_pyStrip (s : List Nat) (a : Nat)
    (h : (pyStrip s).head? = some a) : pySpace a = false := by
  unfold pyStrip at h
  rw [List.head?_reverse] at h
  set X := ((s.dropWhile pySpace).reverse.dropWhile pySpace) with hX
  have hXne : X ≠ [] := by
    intro hnil
    rw [hnil] at h
    simp at h
  have hsuf : X <:+ (s.dropWhile pySpace).reverse := List.dropWhile_suffix _
  have hlast : ((s.dropWhile pySpace).reverse).getLast? = X.getLast? :=
    getLast?_of_suffix _ _ hsuf hXne
  rw [List.getLast?_reverse] at hlast
  exact head?_dropWhile _ _ _ (hlast ▸ h)

theorem infix_dropWhile (p : Nat → Bool) (n : List Nat)
    (hhd : ∀ a, n.head? = some a → p a = false) (hne : n ≠ []) :
    ∀ h : List Nat, n <:+: h → n <:+: h.dropWhile p := by
  intro h
  induction h with
  | nil =>
    intro hin
    rw [ List.infix_nil] at hin
    exact absurd hin hne
  | cons c t ih =>
    intro hin
    rw [ List.infix_cons_iff] at hin
    rw [List.dropWhile_cons]
    split
    · next hc =>
      rcases hin with hpre | hinf
      · cases n with
        | nil => exact absurd rfl hne
        | cons b m =>
          rw [ List.cons_prefix_cons] at hpre
          have hb : p b = false := hhd b rfl
          rw [hpre.1, hc] at hb
          exact absurd hb (by simp)
      · exact ih hinf
    · exact List.infix_cons_iff.mpr hin

theorem infix_dropWhile_right (p : Nat → Bool) (n : List Nat)
    (hlast : ∀ a, n.getLast? = some a → p a = false) (hne : n ≠ []) :
    ∀ h : List Nat, n <:+: h → n <:+: (h.reverse.dropWhile p).reverse := by
  intro h hin
  have h1 : n.reverse <:+: h.reverse := List.reverse_infix.mpr hin
  have hhd : ∀ a, n.reverse.head? = some a → p a = false := by
    intro a ha
    rw [List.head?_reverse] at ha
    exact hlast a ha
  have hne' : n.reverse ≠ [] := by
    intro hnil
    exact hne (by simpa using congrArg List.reverse hnil)
  have h2 := infix_dropWhile p n.reverse hhd hne' h.reverse h1
  have h3 : n.reverse <:+: ((h.reverse.dropWhile p).reverse).reverse := by
    simpa using h2
  exact List.reverse_infix.mp h3

theorem pyStrip_infix_self (s : List Nat) : pyStrip s <:+: s := by
  unfold pyStrip
  have h1 : s.dropWhile pySpace <:+ s := List.dropWhile_suffix _
  have h2 : (s.dropWhile pySpace).reverse.dropWhile pySpace <:+
      (s.dropWhile pySpace).reverse := List.dropWhile_suffix _
  have h3 : ((s.dropWhile pySpace).reverse.dropWhile pySpace).reverse <+:
      s.dropWhile pySpace := List.reverse_suffix.mp (by simpa using h2)
  exact h3.isInfix.trans h1.isInfix

theorem infix_pyStrip_iff (n h : List Nat) (hne : n ≠ [])
    (hhd : ∀ a, n.head? = some a → pySpace a = false)
    (hlast : ∀ a, n.getLast? = some a → pySpace a = false) :
    (n <:+: pyStrip h) ↔ (n <:+: h) := by
  constructor
  · intro hin
    exact hin.trans (pyStrip_infix_self h)
  · intro hin
    unfold pyStrip
    exact infix_dropWhile_right pySpace n hlast hne _
      (infix_dropWhile pySpace n hhd hne h hin)

/-- **C7.** `_is_handoff_message` returns true exactly when some configured
keyword that is non-empty after trimming occurs, case-insensitively, as a
substring of the message text; keywords that strip to the empty string
never cause a match.  (The code additionally strips the message text, which
does not change substring membership for a stripped non-empty keyword.) -/
theorem c7_is_handoff_substring_spec (handoff_keywords : String) (text : List Nat) :
    isHandoffMessage handoff_keywords text = isHandoffSpec handoff_keywords text := by
  unfold isHandoffMessage isHandoffSpec
  rw [ List.any_map]
  refine congrArg (List.any _) (funext fun k => ?_)
  simp only [Function.comp_apply]
  by_cases hk : pyStrip k = []
  · simp [hk, pyLower]
  · have hne : pyLower (pyStrip k) ≠ [] := by
      unfold pyLower
      simpa using hk
    have hempty : (pyLower (pyStrip k)).isEmpty = (pyStrip k).isEmpty :=
      isEmpty_map _ _
    have hhd : ∀ a, (pyLower (pyStrip k)).head? = some a → pySpace a = false := by
      intro a ha
      unfold pyLower at ha
      rw [List.head?_map] at ha
      cases hb : (pyStrip k).head? with
      | none => rw [hb] at ha; simp at ha
      | some b =>
        rw [hb] at ha
        simp only [Option.map_some', Option.some.injEq] at ha
        rw [← ha, pySpace_pyLowerChar]
        exact head?_pyStrip k b hb
    have hlast : ∀ a, (pyLower (pyStrip k)).getLast? = some a → pySpace a = false := by
      intro a ha
      unfold pyLower at ha
      rw [List.getLast?_map] at ha
      cases hb : (pyStrip k).getLast? with
      | none => rw [hb] at ha; simp at ha
      | some b =>
        rw [hb] at ha
        simp only [Option.map_some', Option.some.injEq] at ha
        rw [← ha, pySpace_pyLowerChar]
        exact getLast?_pyStrip k b hb
    have hiff := infix_pyStrip_iff (pyLower (pyStrip k)) (pyLower text) hne hhd hlast
    unfold pyIn
    rw [hempty, decide_eq_decide.mpr hiff]

/-- **C2.** `check_timeout` is true iff the controller is `"HUMAN"` and
the time elapsed since `last_human_activity` exceeds the timeout; a
missing or unparseable `last_human_activity` always yields false. -/
theorem c2_check_timeout_spec (now m : Int) (st : ControlDoc) :
    (checkTimeout now m st = true ↔
      st.controller = "HUMAN" ∧
        ∃ t, st.last_human_activity = some (IsoTime.valid t) ∧ now - t > 60 * m) ∧
    ((st.last_human_activity = none ∨ st.last_human_activity = some IsoTime.malformed) →
      checkTimeout now m st = false) := by
  obtain ⟨c, lha, tk, up⟩ := st
  constructor
  · cases lha with
    | none => simp [checkTimeout, checkHumanTimeout]
    | some ts =>
      cases ts with
      | valid t => simp [checkTimeout, checkHumanTimeout]
      | malformed => simp [checkTimeout, checkHumanTimeout]
  · intro hbad
    rcases hbad with hnone | hmal
    · simp only at hnone
      subst hnone
      simp [checkTimeout, checkHumanTimeout]
    · simp only at hmal
      subst hmal
      simp [checkTimeout, checkHumanTimeout]

/-- Witness for C2: a HUMAN-controlled state whose last human activity was
10 minutes ago times out with a 5-minute timeout, and a missing timestamp
never times out. -/
theorem c2_check_timeout_spec_witness :
    checkTimeout 600 5 ⟨"HUMAN", some (IsoTime.valid 0), "K1", none⟩ = true ∧
    checkTimeout 600 5 ⟨"HUMAN", none, "K1", none⟩ = false :=
  ⟨(c2_check_timeout_spec 600 5 ⟨"HUMAN", some (IsoTime.valid 0), "K1", none⟩).1.mpr
      ⟨rfl, 0, rfl, by norm_num⟩,
    (c2_check_timeout_spec 600 5 ⟨"HUMAN", none, "K1", none⟩).2 (Or.inl rfl)⟩

/-- **C6.** A write of `"HUMAN"` stamps `last_human_activity` with the
current time; a write of `"AI"` leaves whatever `last_human_activity` was
stored before (including its absence) unchanged. -/
theorem c6_set_control_state_frame (store : ControlStore) (tk : String) (now : Int) :
    (getControlState (setControlState store tk "HUMAN" now) tk).last_human_activity
      = some (IsoTime.valid now) ∧
    (getControlState (setControlState store tk "AI" now) tk).last_human_activity
      = (getControlState store tk).last_human_activity := by
  constructor
  · simp [getControlState, setControlState, List.lookup]
  · cases h : store.lookup tk with
    | none => simp [getControlState, setControlState, List.lookup, h]
    | some d => simp [getControlState, setControlState, List.lookup, h]

/-- **C3.** For a non-empty session id with valid credentials, once a call
has produced a (non-empty) key and left the store in its wake, every later
call with the same session id returns that same key and leaves the store
unchanged: get-or-create is idempotent. -/
theorem c3_get_or_create_idempotent (sid : String) (store : ThreadKeyStore)
    (k1 k2 : String) (n1 n2 : Int) (hsid : sid ≠ "")
    (hk : (tkgGetOrCreateKey sid SAJson.valid store k1 n1).1 ≠ "") :
    tkgGetOrCreateKey sid SAJson.valid
        (tkgGetOrCreateKey sid SAJson.valid store k1 n1).2 k2 n2
      = ((tkgGetOrCreateKey sid SAJson.valid store k1 n1).1,
         (tkgGetOrCreateKey sid SAJson.valid store k1 n1).2) := by
  unfold tkgGetOrCreateKey
  rw [if_neg hsid]
  cases h : store.lookup sid with
  | none =>
    have hk1 : k1 ≠ "" := by
      unfold tkgGetOrCreateKey at hk
      rw [if_neg hsid] at hk
      simpa [h] using hk
    simp [tkgGetOrCreateKey, if_neg hsid, h, List.lookup, hk1]
  | some d =>
    by_cases hd : d.thread_key = ""
    · have hk1 : k1 ≠ "" := by
        unfold tkgGetOrCreateKey at hk
        rw [if_neg hsid] at hk
        simpa [h, hd] using hk
      simp [tkgGetOrCreateKey, if_neg hsid, h, hd, List.lookup, hk1]
    · simp [tkgGetOrCreateKey, if_neg hsid, h, hd, List.lookup]

/-- Witness for C3: the first call for session `"s1"` on an empty store
creates `"A3F8K2"`; the second call returns it unchanged. -/
theorem c3_get_or_create_idempotent_witness :
    tkgGetOrCreateKey "s1" SAJson.valid
        (tkgGetOrCreateKey "s1" SAJson.valid [] "A3F8K2" 0).2 "ZZZZZZ" 1
      = ((tkgGetOrCreateKey "s1" SAJson.valid [] "A3F8K2" 0).1,
         (tkgGetOrCreateKey "s1" SAJson.valid [] "A3F8K2" 0).2) :=
  c3_get_or_create_idempotent "s1" [] "A3F8K2" "ZZZZZZ" 0 1
    (by decide) (by decide)

/-- **C9, counterexample.** `ThreadKeyGenerator._get_or_create_key` with an
invalid credential blob and a non-empty session id does NOT raise: it
catches the `json.JSONDecodeError` and degrades to returning the freshly
generated key `"K7"` with no store write — refuting the claim that every
core component raises credential-parsing failures to the caller. -/
theorem c9_counterexample_tkg_swallows_bad_json :
    tkgGetOrCreateKey "sess-1" SAJson.invalid [] "K7" 0 = ("K7", []) := by
  decide

/-- **C9, amended.** Invalid credential JSON is raised to the caller by
`GoogleChatHumanTakeover._route` and `GoogleChatSender.send_message`, but
`ThreadKeyGenerator._get_or_create_key` catches it and degrades to a
generated, non-persisted key. -/
theorem c9_credential_error_policy :
    routeParseServiceAccount SAJson.invalid = Except.error "Invalid Service Account JSON" ∧
    senderParseServiceAccount (some SAJson.invalid)
      = Except.error "Invalid Service Account JSON" ∧
    ∀ (sid : String) (store : ThreadKeyStore) (k : String) (n : Int),
      sid ≠ "" → tkgGetOrCreateKey sid SAJson.invalid store k n = (k, store) := by
  refine ⟨rfl, rfl, fun sid store k n hsid => ?_⟩
  unfold tkgGetOrCreateKey
  rw [if_neg hsid]

/-- Witness for C9 (amended): the three behaviours at concrete inputs. -/
theorem c9_credential_error_policy_witness :
    tkgGetOrCreateKey "sess-2" SAJson.invalid [] "K8" 5 = ("K8", []) :=
  c9_credential_error_policy.2.2 "sess-2" [] "K8" 5 (by decide)

theorem getControlState_setControlState (store : ControlStore)
    (tk controller : String) (now : Int) :
    (getControlState (setControlState store tk controller now) tk).controller
      = controller := by
  simp [getControlState, setControlState, List.lookup]

/-- **C5.** With no stored record for a thread key, `_get_control_state`
returns the default `{controller: "AI", last_human_activity: None}`, and
the router consequently starts the thread under AI control: with no
polled human message it routes to AI, emits nothing and writes nothing. -/
theorem c5_default_control_state (control : ControlStore) (tk : String)
    (kws : String) (m : Int) (threadKeys : ThreadKeyStore) (sid : String) (now : Int)
    (hmiss : control.lookup tk = none)
    (hres : getThreadKey threadKeys sid = tk) (htk : tk ≠ "") :
    getControlState control tk = ⟨"AI", none, tk, none⟩ ∧
    route kws m threadKeys control sid none now
      = ⟨"AI", none, control, []⟩ := by
  have hstate : getControlState control tk = ⟨"AI", none, tk, none⟩ := by
    simp [getControlState, hmiss]
  refine ⟨hstate, ?_⟩
  unfold route
  rw [hres, if_neg htk, hstate]
  simp [checkTimeout, checkHumanTimeout]

/-- Witness for C5 at a concrete store: session `"s1"` resolves to thread
key `"T1"`, for which the control collection has no record. -/
theorem c5_default_control_state_witness :
    getControlState [] "T1" = ⟨"AI", none, "T1", none⟩ ∧
    route "@ai, /handoff, /ai" 5 [("s1", ⟨"T1", "s1", IsoTime.valid 0⟩)] [] "s1" none 100
      = ⟨"AI", none, [], []⟩ :=
  c5_default_control_state [] "T1" "@ai, /handoff, /ai" 5
    [("s1", ⟨"T1", "s1", IsoTime.valid 0⟩)] "s1" 100 rfl (by decide) (by decide)

/-- **C1.** Stored controller `"HUMAN"`, polled human message containing a
handoff keyword: the router returns the AI route, forwards nothing to the
customer, performs at least one store write, and the stored controller is
`"AI"` afterwards. -/
theorem c1_human_handoff_returns_to_ai (kws : String) (m : Int)
    (threadKeys : ThreadKeyStore) (control : ControlStore) (sid : String)
    (msg : PolledMsg) (now : Int)
    (htk : getThreadKey threadKeys sid ≠ "")
    (hctl : (getControlState control (getThreadKey threadKeys sid)).controller = "HUMAN")
    (hhand : isHandoffMessage kws msg.text = true) :
    (route kws m threadKeys control sid (some msg) now).route = "AI" ∧
    (route kws m threadKeys control sid (some msg) now).forwarded = none ∧
    (route kws m threadKeys control sid (some msg) now).writes ≠ [] ∧
    (getControlState (route kws m threadKeys control sid (some msg) now).control
        (getThreadKey threadKeys sid)).controller = "AI" := by
  unfold route
  rw [if_neg htk]
  simp only [hhand, if_true]
  by_cases hto :
      checkTimeout now m (getControlState control (getThreadKey threadKeys sid)) = true
  · simp [hto, getControlState_setControlState]
  · simp only [Bool.not_eq_true] at hto
    simp [hto, getControlState_setControlState]

/-- Witness for C1: a HUMAN-controlled thread receives
`"@ai thanks, you can take it back"`. -/
theorem c1_human_handoff_returns_to_ai_witness :
    (route "@ai, /handoff, /ai" 5 [("s1", ⟨"T1", "s1", IsoTime.valid 0⟩)]
        [("T1", ⟨"HUMAN", some (IsoTime.valid 90), "T1", some (IsoTime.valid 90)⟩)]
        "s1" (some ⟨strCodes "@ai thanks, you can take it back", "Op", strCodes "op@x.com"⟩)
        100).route = "AI" ∧
    (route "@ai, /handoff, /ai" 5 [("s1", ⟨"T1", "s1", IsoTime.valid 0⟩)]
        [("T1", ⟨"HUMAN", some (IsoTime.valid 90), "T1", some (IsoTime.valid 90)⟩)]
        "s1" (some ⟨strCodes "@ai thanks, you can take it back", "Op", strCodes "op@x.com"⟩)
        100).forwarded = none ∧
    (route "@ai, /handoff, /ai" 5 [("s1", ⟨"T1", "s1", IsoTime.valid 0⟩)]
        [("T1", ⟨"HUMAN", some (IsoTime.valid 90), "T1", some (IsoTime.valid 90)⟩)]
        "s1" (some ⟨strCodes "@ai thanks, you can take it back", "Op", strCodes "op@x.com"⟩)
        100).writes ≠ [] ∧
    (getControlState
        (route "@ai, /handoff, /ai" 5 [("s1", ⟨"T1", "s1", IsoTime.valid 0⟩)]
          [("T1", ⟨"HUMAN", some (IsoTime.valid 90), "T1", some (IsoTime.valid 90)⟩)]
          "s1" (some ⟨strCodes "@ai thanks, you can take it back", "Op", strCodes "op@x.com"⟩)
          100).control
        (getThreadKey [("s1", ⟨"T1", "s1", IsoTime.valid 0⟩)] "s1")).controller = "AI" :=
  c1_human_handoff_returns_to_ai "@ai, /handoff, /ai" 5
    [("s1", ⟨"T1", "s1", IsoTime.valid 0⟩)]
    [("T1", ⟨"HUMAN", some (IsoTime.valid 90), "T1", some (IsoTime.valid 90)⟩)]
    "s1" ⟨strCodes "@ai thanks, you can take it back", "Op", strCodes "op@x.com"⟩ 100
    (by decide) (by decide) (by decide)

/-- **C10.** Whenever the polled human message contains a handoff keyword,
the router returns the AI route with nothing forwarded and writes `"AI"`
as the last store write — for every stored control state, including when
AI already controls the thread ("handoff while AI" also writes AI and
emits nothing, and HUMAN control is never granted). -/
theorem c10_handoff_never_grants_human (kws : String) (m : Int)
    (threadKeys : ThreadKeyStore) (control : ControlStore) (sid : String)
    (msg : PolledMsg) (now : Int)
    (htk : getThreadKey threadKeys sid ≠ "")
    (hhand : isHandoffMessage kws msg.text = true) :
    (route kws m threadKeys control sid (some msg) now).route = "AI" ∧
    (route kws m threadKeys control sid (some msg) now).forwarded = none ∧
    (route kws m threadKeys control sid (some msg) now).writes.getLast? = some "AI" ∧
    (getControlState (route kws m threadKeys control sid (some msg) now).control
        (getThreadKey threadKeys sid)).controller = "AI" := by
  unfold route
  rw [if_neg htk]
  simp only [hhand, if_true]
  by_cases hto :
      checkTimeout now m (getControlState control (getThreadKey threadKeys sid)) = true
  · simp [hto, getControlState_setControlState]
  · simp only [Bool.not_eq_true] at hto
    simp [hto, getControlState_setControlState]

/-- Witness for C10: a handoff message arriving while AI already controls
the thread (no stored record at all) still yields the AI route, no
forwarded message, and a store write of `"AI"`. -/
theorem c10_handoff_never_grants_human_witness :
    (route "@ai, /handoff, /ai" 5 [("s1", ⟨"T1", "s1", IsoTime.valid 0⟩)] [] "s1"
        (some ⟨strCodes "please /handoff now", "Op", strCodes "op@x.com"⟩) 100).route = "AI" ∧
    (route "@ai, /handoff, /ai" 5 [("s1", ⟨"T1", "s1", IsoTime.valid 0⟩)] [] "s1"
        (some ⟨strCodes "please /handoff now", "Op", strCodes "op@x.com"⟩) 100).forwarded
      = none ∧
    (route "@ai, /handoff, /ai" 5 [("s1", ⟨"T1", "s1", IsoTime.valid 0⟩)] [] "s1"
        (some ⟨strCodes "please /handoff now", "Op", strCodes "op@x.com"⟩) 100).writes.getLast?
      = some "AI" ∧
    (getControlState
        (route "@ai, /handoff, /ai" 5 [("s1", ⟨"T1", "s1", IsoTime.valid 0⟩)] [] "s1"
          (some ⟨strCodes "please /handoff now", "Op", strCodes "op@x.com"⟩) 100).control
        (getThreadKey [("s1", ⟨"T1", "s1", IsoTime.valid 0⟩)] "s1")).controller = "AI" :=
  c10_handoff_never_grants_human "@ai, /handoff, /ai" 5
    [("s1", ⟨"T1", "s1", IsoTime.valid 0⟩)] [] "s1"
    ⟨strCodes "please /handoff now", "Op", strCodes "op@x.com"⟩ 100
    (by decide) (by decide)

theorem ackIf_true (id : Nat) (a : List Nat) : ackIf true id a = id :: a := rfl

/-- **C4, counterexample.** In the takeover component's quick check, a
batch consisting of one message with a malformed payload is examined but
nothing is acknowledged: an examined message IS left unacknowledged for
redelivery, refuting the claim that decode failures are acknowledged and
discarded in every poll. -/
theorem c4_counterexample_malformed_not_acked :
    (checkHumanMessageBatch [] [(0, QMsg.malformed)]).examined
        = [(0, QMsg.malformed)] ∧
    (checkHumanMessageBatch [] [(0, QMsg.malformed)]).acked = [] := by
  decide

/-- **C4, amended.** Every message examined during one poll whose payload
decodes successfully is acknowledged regardless of the filters, in both
the trigger (with acknowledgment enabled) and the takeover quick check;
and in the trigger a message whose payload fails to decode is also
acknowledged (when acknowledgment is enabled).  Only the takeover quick
check leaves malformed payloads unacknowledged. -/
theorem c4_examined_messages_acked (bot_email tbot : List Nat)
    (thread_filter : String) (pg : Bool) (msgs tmsgs : List (Nat × QMsg)) :
    (∀ id m, (id, m) ∈ (checkHumanMessageBatch bot_email msgs).examined →
      m ≠ QMsg.malformed → id ∈ (checkHumanMessageBatch bot_email msgs).acked) ∧
    (∀ id m, (id, m) ∈ (triggerBatch true pg tbot thread_filter tmsgs).examined →
      id ∈ (triggerBatch true pg tbot thread_filter tmsgs).acked) := by
  constructor
  · induction msgs with
    | nil => intro id m h; simp [checkHumanMessageBatch] at h
    | cons hd rest ih =>
      obtain ⟨hid, hm⟩ := hd
      intro id m hmem hdec
      cases hm with
      | malformed =>
        simp only [checkHumanMessageBatch, List.mem_cons, Prod.mk.injEq] at hmem
        rcases hmem with ⟨h1, h2⟩ | hmem
        · exact absurd h2 hdec
        · simp only [checkHumanMessageBatch]
          exact ih id m hmem hdec
      | event e =>
        by_cases ht : e.type ≠ "MESSAGE"
        · simp only [checkHumanMessageBatch, if_pos ht, List.mem_cons,
            Prod.mk.injEq] at hmem ⊢
          rcases hmem with ⟨h1, h2⟩ | hmem
          · exact Or.inl h1
          · exact Or.inr (ih id m hmem hdec)
        · by_cases hb : (!bot_email.isEmpty && pyIn bot_email e.sender_email) = true
          · simp only [checkHumanMessageBatch, if_neg ht, if_pos hb, List.mem_cons,
              Prod.mk.injEq] at hmem ⊢
            rcases hmem with ⟨h1, h2⟩ | hmem
            · exact Or.inl h1
            · exact Or.inr (ih id m hmem hdec)
          · simp only [checkHumanMessageBatch, if_neg ht, if_neg hb, List.mem_cons,
              Prod.mk.injEq, List.not_mem_nil, or_false] at hmem ⊢
            exact hmem.1
  · induction tmsgs with
    | nil => intro id m h; simp [triggerBatch] at h
    | cons hd rest ih =>
      obtain ⟨hid, hm⟩ := hd
      intro id m hmem
      cases hm with
      | malformed =>
        simp only [triggerBatch, ackIf_true, List.mem_cons, Prod.mk.injEq] at hmem ⊢
        rcases hmem with ⟨h1, h2⟩ | hmem
        · exact Or.inl h1
        · exact Or.inr (ih id m hmem)
      | event e =>
        cases pg with
        | true =>
          by_cases ht : e.type ≠ "MESSAGE"
          · simp only [triggerBatch, if_pos ht, ackIf_true, List.mem_cons,
              Prod.mk.injEq, ite_true] at hmem ⊢
            rcases hmem with ⟨h1, h2⟩ | hmem
            · exact Or.inl h1
            · exact Or.inr (ih id m hmem)
          · by_cases ha : (!shouldAcceptMessage tbot thread_filter e) = true
            · simp only [triggerBatch, if_neg ht, if_pos ha, ackIf_true,
                List.mem_cons, Prod.mk.injEq, ite_true] at hmem ⊢
              rcases hmem with ⟨h1, h2⟩ | hmem
              · exact Or.inl h1
              · exact Or.inr (ih id m hmem)
            · simp only [triggerBatch, if_neg ht, if_neg ha, ackIf_true,
                List.mem_cons, Prod.mk.injEq, List.not_mem_nil, or_false,
                ite_true] at hmem ⊢
              exact hmem.1
        | false =>
          simp only [triggerBatch, ackIf_true, List.mem_cons, Prod.mk.injEq,
            List.not_mem_nil, or_false, Bool.false_eq_true, ite_false] at hmem ⊢
          exact hmem.1

/-- Witness for C4 (amended): a batch with a filtered-out bot message
followed by an operator message — the bot message is acknowledged even
though it is not returned; the trigger also acknowledges a malformed
payload. -/
theorem c4_examined_messages_acked_witness :
    (7 ∈ (checkHumanMessageBatch (strCodes "bot@x.iam")
        [(7, QMsg.event ⟨"MESSAGE", strCodes "bot@x.iam", "Bot", strCodes "hi", "t1"⟩),
         (8, QMsg.event ⟨"MESSAGE", strCodes "op@x.com", "Op", strCodes "hello", "t1"⟩)]).acked) ∧
    (3 ∈ (triggerBatch true true (strCodes "bot@x.iam") ""
        [(3, QMsg.malformed)]).acked) :=
  ⟨(c4_examined_messages_acked (strCodes "bot@x.iam") (strCodes "bot@x.iam") "" true
      [(7, QMsg.event ⟨"MESSAGE", strCodes "bot@x.iam", "Bot", strCodes "hi", "t1"⟩),
       (8, QMsg.event ⟨"MESSAGE", strCodes "op@x.com", "Op", strCodes "hello", "t1"⟩)]
      [(3, QMsg.malformed)]).1 7
      (QMsg.event ⟨"MESSAGE", strCodes "bot@x.iam", "Bot", strCodes "hi", "t1"⟩)
      (by decide) (by decide),
    (c4_examined_messages_acked (strCodes "bot@x.iam") (strCodes "bot@x.iam") "" true
      [(7, QMsg.event ⟨"MESSAGE", strCodes "bot@x.iam", "Bot", strCodes "hi", "t1"⟩),
       (8, QMsg.event ⟨"MESSAGE", strCodes "op@x.com", "Op", strCodes "hello", "t1"⟩)]
      [(3, QMsg.malformed)]).2 3 QMsg.malformed (by decide)⟩

/-- **C8.** Provided the cache has no entry under the empty thread key
(it never does: entries are only stored for a non-empty key), the sender
picks the thread reference by the spec's priority — explicit name, then
cache, then bare key, then none — and appends the
`REPLY_MESSAGE_FALLBACK_TO_NEW_THREAD` query flag exactly when some
thread reference is supplied. -/
theorem c8_thread_resolution_priority (thread_name_input thread_key space_id : String)
    (cache : List (String × String))
    (hnil : cache.lookup (space_id ++ ":") = none) :
    (sendThreadChoice thread_name_input thread_key space_id cache).1
      = specThreadChoice thread_name_input thread_key space_id cache ∧
    (sendThreadChoice thread_name_input thread_key space_id cache).2
      = (sendThreadChoice thread_name_input thread_key space_id cache).1.isSome := by
  unfold sendThreadChoice specThreadChoice
  by_cases h1 : pyStripStr thread_name_input ≠ ""
  · simp [h1]
  · by_cases h2 : thread_key ≠ ""
    · have hck : space_id ++ ":" ++ thread_key ≠ "" := by
        intro h
        have h' := congrArg String.length h
        simp only [String.length_append] at h'
        have hc1 : (":" : String).length = 1 := rfl
        have hc0 : ("" : String).length = 0 := rfl
        rw [hc1, hc0] at h'
        omega
      cases hc : cache.lookup (space_id ++ ":" ++ thread_key) with
      | some cached => simp [h1, h2, hc, hck]
      | none => simp [h1, h2, hc, hck]
    · have h2' : thread_key = "" := by simpa using h2
      subst h2'
      have : space_id ++ ":" ++ "" = space_id ++ ":" := by simp
      rw [this] at *
      simp [h1, hnil]

/-- Witness for C8: with an empty explicit name, key `"T1"` and a cache
holding the resolved name for `spaces/A:T1`, the cached thread name is
used and the reply-option flag is set. -/
theorem c8_thread_resolution_priority_witness :
    (sendThreadChoice "" "T1" "spaces/A"
        [("spaces/A:T1", "spaces/A/threads/X")]).1
      = specThreadChoice "" "T1" "spaces/A"
          [("spaces/A:T1", "spaces/A/threads/X")] ∧
    (sendThreadChoice "" "T1" "spaces/A"
        [("spaces/A:T1", "spaces/A/threads/X")]).2
      = (sendThreadChoice "" "T1" "spaces/A"
          [("spaces/A:T1", "spaces/A/threads/X")]).1.isSome :=
  c8_thread_resolution_priority "" "T1" "spaces/A"
    [("spaces/A:T1", "spaces/A/threads/X")] (by decide)

end Langflow
